/-
Verification of the VM-to-assembly translator (parse.rs, translate.rs,
vm_program.rs) against its natural-language specification.

The Rust sources are shallowly embedded: each Rust function becomes a Lean
function of the same name; the mutable `Parser` and `Translator` structs become
explicit state passing; Rust panics (`unimplemented!`, `unreachable!`) and
`Result` errors become `Except` values.  String emission is reproduced
character-for-character from the Rust format strings.
-/
import Mathlib

set_option maxRecDepth 4000

namespace Vm

/- ===================== vm_program.rs ===================== -/

inductive ArithmeticOpcode where
  | Add | Sub | Neg | Eq | Gt | Lt | And | Or | Not
deriving DecidableEq, Repr

/-- `ArithmeticOpcode::from_name`, generated by the `keyword_enum!` macro. -/
def ArithmeticOpcode.from_name : String → Option ArithmeticOpcode
  | "add" => some .Add
  | "sub" => some .Sub
  | "neg" => some .Neg
  | "eq" => some .Eq
  | "gt" => some .Gt
  | "lt" => some .Lt
  | "and" => some .And
  | "or" => some .Or
  | "not" => some .Not
  | _ => none

/-- `ArithmeticOpcode::all_names`, generated by the `keyword_enum!` macro. -/
def ArithmeticOpcode.all_names : List String :=
  ["add", "sub", "neg", "eq", "gt", "lt", "and", "or", "not"]

inductive MemorySegment where
  | Argument | Local | Static | Constant | This | That | Pointer | Temp
deriving DecidableEq, Repr

/-- `MemorySegment::from_name`, generated by the `keyword_enum!` macro. -/
def MemorySegment.from_name : String → Option MemorySegment
  | "argument" => some .Argument
  | "local" => some .Local
  | "static" => some .Static
  | "constant" => some .Constant
  | "this" => some .This
  | "that" => some .That
  | "pointer" => some .Pointer
  | "temp" => some .Temp
  | _ => none

/-- `MemorySegment::all_names`, generated by the `keyword_enum!` macro. -/
def MemorySegment.all_names : List String :=
  ["argument", "local", "static", "constant", "this", "that", "pointer", "temp"]

/-- The text produced for a `MemorySegment` by Rust's `{:?}` (derived `Debug`). -/
def MemorySegment.debugName : MemorySegment → String
  | .Argument => "Argument"
  | .Local => "Local"
  | .Static => "Static"
  | .Constant => "Constant"
  | .This => "This"
  | .That => "That"
  | .Pointer => "Pointer"
  | .Temp => "Temp"

inductive CommandName where
  | Push | Pop | Label | Goto | IfGoto | Function | Return | Call
  | Arithmetic (op : ArithmeticOpcode)
deriving DecidableEq, Repr

/-- `CommandName::from_name`: the eight keyword variants generated by
`keyword_enum!` plus the extra arm delegating to `ArithmeticOpcode::from_name`. -/
def CommandName.from_name (name : String) : Option CommandName :=
  match name with
  | "push" => some .Push
  | "pop" => some .Pop
  | "label" => some .Label
  | "goto" => some .Goto
  | "if-goto" => some .IfGoto
  | "function" => some .Function
  | "return" => some .Return
  | "call" => some .Call
  | _ => (ArithmeticOpcode.from_name name).map CommandName.Arithmetic

/-- `CommandName::all_names`: only the literal keywords appear (the macro does
not include the extra `Arithmetic` variant). -/
def CommandName.all_names : List String :=
  ["push", "pop", "label", "goto", "if-goto", "function", "return", "call"]

inductive VmCommand where
  | Arithmetic (op : ArithmeticOpcode)
  | Push (segment : MemorySegment) (index : Nat)
  | Pop (segment : MemorySegment) (index : Nat)
  | Label (name : String)
  | FnSetup (num_locals : Nat)
  | Call (fn_name : String) (num_args : Nat)
  | Goto (name : String)
  | IfGoto (name : String)
  | Return
deriving DecidableEq, Repr

structure VmProgram where
  commands : List VmCommand
  static_size : Nat
deriving DecidableEq, Repr

/-- `VmProgram::new`. -/
def VmProgram.new : VmProgram := { commands := [], static_size := 0 }

/-- `VmProgram::push_command`. -/
def VmProgram.push_command (p : VmProgram) (command : VmCommand) : VmProgram :=
  { p with commands := p.commands ++ [command] }

/-- `VmProgram::increase_static_size`. -/
def VmProgram.increase_static_size (p : VmProgram) (required_capacity : Nat) : VmProgram :=
  { p with static_size := max p.static_size required_capacity }

/-- Modelled from the spec: `VmProgram::into_commands` is called by
`translate` but its definition is not among the provided sources.  Per §4.2 the
generator consumes "the Intermediate Program's Instruction sequence in order",
so it yields the stored command list. -/
def VmProgram.into_commands (p : VmProgram) : List VmCommand := p.commands

/- ===================== translate.rs ===================== -/

inductive Register where
  | A | D | M
deriving DecidableEq, Repr

/-- The `Display` impl for `Register`. -/
def Register.display : Register → String
  | .A => "A"
  | .D => "D"
  | .M => "M"

structure Translator where
  next_unnamed_label_id : Nat
  result : String
  current_num_locals : Nat
deriving DecidableEq, Repr

/-- The panics reachable from `Translator::translate`, modelled as errors. -/
inductive TranslateDefect where
  /-- `unimplemented!()` in the `VmCommand::IfGoto` arm of `Translator::translate`. -/
  | ifGotoUnimplemented
  /-- `unimplemented!("{:?}", segment)` fallback arm of `Translator::translate_push`. -/
  | pushSegmentUnimplemented (segment : MemorySegment)
  /-- `unreachable!()` in the `Constant` arm of `Translator::translate_pop`. -/
  | popConstantUnreachable
  /-- `unimplemented!("{:?}", segment)` fallback arm of `Translator::translate_pop`. -/
  | popSegmentUnimplemented (segment : MemorySegment)
deriving DecidableEq, Repr

/-- `self.result.push_str(s)`. -/
def Translator.push_str (t : Translator) (s : String) : Translator :=
  { t with result := t.result ++ s }

/-- `Translator::make_label`. -/
def Translator.make_label (t : Translator) : String × Translator :=
  ("__VM_IMPL_LABEL_" ++ Nat.repr t.next_unnamed_label_id,
   { t with next_unnamed_label_id := t.next_unnamed_label_id + 1 })

/-- The raw-string body of `Translator::push`. -/
def pushBodyText : String :=
  "@SP      // load stack pointer address into A\nA=M      // load *spa into A.\nM=D      // load D into **spa\nD=A+1    // load *(*spa + 1) into D\n@SP      // load spa into A\nM=D      // load D (==*(*spa + 1)) into *spa\n"

/-- `Translator::push`. -/
def Translator.push (t : Translator) (fromReg : Register) : Translator :=
  let t := t.push_str "// action: push\n"
  let t := if fromReg ≠ Register.D
    then t.push_str ("D=" ++ fromReg.display ++ "\n") else t
  t.push_str pushBodyText

/-- The raw-string body of `Translator::pop`. -/
def popBodyText : String :=
  "@SP      // load stack pointer address into A\nA=M-1    // load *spa-1 into A\nD=M      // load *(*spa-1) into D\n@R13     // load r13addr into A\nM=D      // load *(*spa-1) into *r13addr\n@SP      // load spa into A\nM=M-1    // load *spa-1 into *spa\n@R13     // load r13addr into A\n"

/-- `Translator::pop`. -/
def Translator.pop (t : Translator) (into : Register) : Translator :=
  let t := t.push_str "// action: pop\n"
  let t := t.push_str popBodyText
  t.push_str (into.display ++ "=M      // Copy *r13addr (==**spa) into " ++ into.display ++ "\n")

/-- The comparison format string in `Translator::translate_arithmetic_opcode`,
with the label (`{0}`) and jump mnemonic (`{1}`) substituted. -/
def comparisonText (label jump : String) : String :=
  "@SP      // Load spa into A\nA=M-1    // load *spa-1 into A\nD=M-D    // perform comparison between D and *(*spa-1)\nM=-1     // load true into *(*spa-1)\n@" ++ label ++ "\nD;" ++ jump ++ "    // skip setting value to false if condition is true\n@SP      // load spa into A\nA=M-1    // load *spa-1 into A\nM=0      // load false into *(*spa-1)\n(" ++ label ++ ")\n// end command: arithmetic\n\n"

/-- The trailing format string in `Translator::translate_arithmetic_opcode`
used by the non-comparison opcodes, with the in-place operation substituted. -/
def arithmeticTailText (op : String) : String :=
  "@SP      // Load spa into A\nA=M-1    // Load *spa-1 into A\n" ++ op ++ "\n// end command: arithmetic\n\n"

/-- The `Eq | Gt | Lt` arm of `Translator::translate_arithmetic_opcode`:
pop the right operand, make a fresh label, and emit the comparison template
with the opcode's jump mnemonic. -/
def Translator.comparisonCase (t : Translator) (jump : String) : Translator :=
  let t := t.pop .D
  let (skip_set_false, t) := t.make_label
  t.push_str (comparisonText skip_set_false jump)

/-- `Translator::translate_arithmetic_opcode`.  The `pop_second` flag of the
Rust code is resolved per opcode: binary opcodes pop the right operand first,
unary opcodes do not. -/
def Translator.translate_arithmetic_opcode (t : Translator) (opcode : ArithmeticOpcode) : Translator :=
  let t := t.push_str "// command: arithmetic\n"
  match opcode with
  | .Add => (t.pop .D).push_str (arithmeticTailText "M=M+D")
  | .Sub => (t.pop .D).push_str (arithmeticTailText "M=M-D")
  | .Neg => t.push_str (arithmeticTailText "M=-M")
  | .Eq => t.comparisonCase "JEQ"
  | .Gt => t.comparisonCase "JGT"
  | .Lt => t.comparisonCase "JLT"
  | .And => (t.pop .D).push_str (arithmeticTailText "M=M&D")
  | .Or => (t.pop .D).push_str (arithmeticTailText "M=M|D")
  | .Not => t.push_str (arithmeticTailText "M=!M")

/-- The first format string of `Translator::translate_call`, substituted.
`num_args` is already rendered to decimal text. -/
def callHeaderText (fn_name num_args ret_label : String) : String :=
  "// command: call " ++ fn_name ++ " " ++ num_args ++ "\n// push return address onto stack.\n@" ++ ret_label ++ "\n"

/-- The second format string of `Translator::translate_call`, substituted.
Note the trailing space after `@` + numargs, present in the Rust source. -/
def callPointerSetupText (num_args fn_name ret_label : String) : String :=
  "// create new ARG pointer\n@" ++ num_args ++ " \nD=A      // load numargs into D\n@5\nD=D+A    // add five to compensate for additional pushed values.\n@SP      // load spa into A\nD=M-D    // load *spa - (numargs + 5) into D\n@ARG     // load argptr into A\nM=D      // load *spa - (numargs + 5) into *argptr\n// create new LCL pointer\n@SP\nD=M\n@LCL\nM=D\n// jump to function\n@" ++ fn_name ++ "\n0;JEQ\n(" ++ ret_label ++ ")\n"

/-- `Translator::translate_call`.  The final `push_str` argument is a plain
string literal in the Rust source, so `{0}` and `{1}` appear verbatim. -/
def Translator.translate_call (t : Translator) (fn_name : String) (num_args : Nat) : Translator :=
  let (ret_label, t) := t.make_label
  let t := t.push_str (callHeaderText fn_name (Nat.repr num_args) ret_label)
  let t := t.push .A
  let t := t.push_str "// push old LCL onto stack\n@LCL\n"
  let t := t.push .M
  let t := t.push_str "// push old ARG onto stack\n@ARG\n"
  let t := t.push .M
  let t := t.push_str "// push old THIS onto stack\n@THIS\n"
  let t := t.push .M
  let t := t.push_str "// push old THAT onto stack\n@THAT\n"
  let t := t.push .M
  let t := t.push_str (callPointerSetupText (Nat.repr num_args) fn_name ret_label)
  t.push_str "// end command: call {0} {1}\n\n"

/-- `Translator::translate_fn_setup`. -/
def Translator.translate_fn_setup (t : Translator) (num_locals : Nat) : Translator :=
  let t := { t with current_num_locals := num_locals }
  let t := t.push_str ("// command: function " ++ Nat.repr num_locals ++ "\n")
  let t := (List.range num_locals).foldl
    (fun t idx => (t.push_str ("// push local #" ++ Nat.repr idx ++ "\nD=0\n")).push .D) t
  t.push_str ("// end command: function " ++ Nat.repr num_locals ++ "\n\n")

/-- The raw-string block of `Translator::translate_return` that deallocates
locals and saves the ARG pointer in R15. -/
def deallocLocalsText : String :=
  "// deallocate locals\n@LCL\nD=M      // load *localptr into D\n@SP\nM=D      // load D (==*localptr) into *stackptr\n// store ARG value in R15\n@ARG\nD=M\n@R15\nM=D\n// restore old THAT value\n"

/-- `Translator::translate_return`. -/
def Translator.translate_return (t : Translator) : Translator :=
  let t := t.push_str ("// command: return (" ++ Nat.repr t.current_num_locals ++ " locals)\n// pop return value\n")
  let t := t.pop .D
  let t := t.push_str "// store in R14\n@R14\nM=D\n"
  let t := t.push_str deallocLocalsText
  let t := t.pop .D
  let t := t.push_str "@THAT\nM=D\n// restore old THIS value\n"
  let t := t.pop .D
  let t := t.push_str "@THIS\nM=D\n// restore old ARG value\n"
  let t := t.pop .D
  let t := t.push_str "@ARG\nM=D\n// restore old LCL value\n"
  let t := t.pop .D
  let t := t.push_str "@LCL\nM=D\n// store return address in R13\n"
  let t := t.pop .D
  let t := t.push_str "@R13\nM=D\n"
  let t := t.push_str "// reset stack pointer from R15 and push return value\n"
  let t := t.push_str "@R15\nD=M\n@SP\nM=D\n@R14\n"
  let t := t.push .M
  let t := t.push_str "// jump to return address\n"
  let t := t.push_str "@R13\nA=M\n0;JEQ\n"
  t.push_str "// end command: return\n\n"

/-- `Translator::load_d_from_offset`. -/
def load_d_from_offset (offset : Nat) : String :=
  "@" ++ Nat.repr offset ++ "\nD=M\n"

/-- `Translator::load_d_from_ptr_offset`. -/
def load_d_from_ptr_offset (ptr_name : String) (offset : Nat) : String :=
  "@" ++ ptr_name ++ "\nD=M\n@" ++ Nat.repr offset ++ "\nA=D+A\nD=M\n"

/-- `Translator::store_d_into_offset`. -/
def store_d_into_offset (offset : Nat) : String :=
  "@" ++ Nat.repr offset ++ "\nM=D\n"

/-- `Translator::store_d_into_ptr_offset`. -/
def store_d_into_ptr_offset (ptr_name : String) (offset : Nat) : String :=
  "@R13\nM=D\n@" ++ ptr_name ++ "\nD=A\n@" ++ Nat.repr offset ++ "\nD=D+A\n@R14\nM=D\n@R13\nD=M\n@R14\nA=M\nM=D\n"

/-- `Translator::translate_push`.  The `match` computing `code` runs before any
text is appended, so the `Static` fallback panics with nothing emitted. -/
def Translator.translate_push (t : Translator) (segment : MemorySegment) (index : Nat) :
    Except TranslateDefect Translator := do
  let code ← match segment with
    | .Constant => pure ("@" ++ Nat.repr index ++ "\nD=A")
    | .Local => pure (load_d_from_ptr_offset "LCL" index)
    | .Argument => pure (load_d_from_ptr_offset "ARG" index)
    | .This => pure (load_d_from_ptr_offset "THIS" index)
    | .That => pure (load_d_from_ptr_offset "THAT" index)
    | .Pointer => pure (load_d_from_offset (3 + index))
    | .Temp => pure (load_d_from_offset (5 + index))
    | .Static => throw (TranslateDefect.pushSegmentUnimplemented .Static)
  let t := t.push_str ("// command: push " ++ segment.debugName ++ " " ++ Nat.repr index ++ "\n")
  let t := t.push_str code
  let t := t.push .D
  pure (t.push_str "// end command: push\n\n")

/-- `Translator::translate_pop`.  As in `translate_push`, the `match` computing
`code` runs before any text is appended. -/
def Translator.translate_pop (t : Translator) (segment : MemorySegment) (index : Nat) :
    Except TranslateDefect Translator := do
  let code ← match segment with
    | .Constant => throw TranslateDefect.popConstantUnreachable
    | .Local => pure (store_d_into_ptr_offset "LCL" index)
    | .Argument => pure (store_d_into_ptr_offset "ARG" index)
    | .This => pure (store_d_into_ptr_offset "THIS" index)
    | .That => pure (store_d_into_ptr_offset "THAT" index)
    | .Pointer => pure (store_d_into_offset (3 + index))
    | .Temp => pure (store_d_into_offset (5 + index))
    | .Static => throw (TranslateDefect.popSegmentUnimplemented .Static)
  let t := t.push_str ("// command: pop " ++ segment.debugName ++ " " ++ Nat.repr index ++ "\n")
  let t := t.pop .D
  pure (t.push_str code)

/-- One iteration of the `for command in commands` loop in
`Translator::translate`. -/
def Translator.translateCommand (t : Translator) (command : VmCommand) :
    Except TranslateDefect Translator :=
  match command with
  | .Arithmetic opcode => pure (t.translate_arithmetic_opcode opcode)
  | .Call fn_name num_args => pure (t.translate_call fn_name num_args)
  | .FnSetup num_locals => pure (t.translate_fn_setup num_locals)
  | .Goto label => pure (t.push_str ("@" ++ label ++ "\n0;JEQ\n"))
  | .IfGoto _ => throw TranslateDefect.ifGotoUnimplemented
  | .Label label => pure (t.push_str ("(" ++ label ++ ")\n"))
  | .Push segment index => t.translate_push segment index
  | .Pop segment index => t.translate_pop segment index
  | .Return => pure t.translate_return

/-- The command loop of `Translator::translate`. -/
def Translator.translateCommands (t : Translator) : List VmCommand → Except TranslateDefect Translator
  | [] => pure t
  | command :: rest => do
    let t ← t.translateCommand command
    t.translateCommands rest

/-- The method `Translator::translate`: run every command, return `result`. -/
def Translator.translate (t : Translator) (commands : List VmCommand) :
    Except TranslateDefect String :=
  (t.translateCommands commands).map Translator.result

/-- The free function `translate`: build the zero-initialized translator and
run it.  The Rust function returns `Ok` whenever the loop does not panic; the
panics are modelled as `Except.error`. -/
def translate (program : VmProgram) : Except TranslateDefect String :=
  Translator.translate
    { next_unnamed_label_id := 0, result := "", current_num_locals := 0 }
    program.into_commands

/- ===================== parse.rs ===================== -/

/-- Rust's `char::is_whitespace`: the Unicode `White_Space` property. -/
def isRustWhitespace (c : Char) : Bool :=
  let n := c.toNat
  (9 ≤ n && n ≤ 13) || n == 32 || n == 133 || n == 160 || n == 5760 ||
  (8192 ≤ n && n ≤ 8202) || n == 8232 || n == 8233 || n == 8239 || n == 8287 || n == 12288

/-- Rust's `str::parse::<usize>` (`usize::from_str`): an optional leading `+`
followed by one or more ASCII digits; values of 2^64 or more are rejected as
overflow.  Returns `none` exactly when Rust returns `Err`. -/
def parseUsize (s : String) : Option Nat :=
  let ds := match s.data with
    | '+' :: rest => rest
    | other => other
  if ds.isEmpty then none
  else if ds.all Char.isDigit then
    let v := ds.foldl (fun a c => a * 10 + (c.toNat - 48)) 0
    if v < 2 ^ 64 then some v else none
  else none

/-- The parser state (`struct Parser`), with the `&mut VmProgram` output held
by value.  `file_path` is used only in error values. -/
structure Parser where
  source : List Char
  file_path : String
  current_line : Nat
  current_col : Nat
  /-- Where (push static 0) and (pop static 0) should go. -/
  static_base : Nat
  output : VmProgram
deriving DecidableEq, Repr

/-- `Parser::new`: the session captures `static_base` from the program's
current `static_size`. -/
def Parser.new (output : VmProgram) (source : String) (file_path : String) : Parser :=
  { source := source.data
    file_path := file_path
    current_line := 1
    current_col := 1
    static_base := output.static_size
    output := output }

/-- One error value per distinct error construction site in `parse.rs`.  Each
carries the data interpolated into the corresponding message. -/
inductive ParseError where
  /-- `expected_one_of_found_error_message`: unknown symbol with an expected set. -/
  | expectedOneOfFound (file_path : String) (pos : Nat × Nat) (expected : List String) (found : String)
  /-- `expected_one_of_eof_error_message`: end of file with an expected set. -/
  | expectedOneOfEof (file_path : String) (pos : Nat × Nat) (expected : List String)
  /-- "Expected a nonnegative integer, got ... instead." in `advance_constant`. -/
  | expectedNonnegativeInteger (file_path : String) (pos : Nat × Nat) (symbol : String)
  /-- "The integer ... is too big (expected 32767 or below)." in `advance_constant`. -/
  | integerTooBig (file_path : String) (pos : Nat × Nat) (symbol : String)
  /-- "Unexpected end of file, expected an integer." in `advance_constant`. -/
  | eofExpectedInteger (file_path : String) (pos : Nat × Nat)
  /-- "Encountered illegal character ... in identifier ..." in `advance_identifier`. -/
  | illegalIdentifierCharacter (file_path : String) (pos : Nat × Nat) (ch : Char) (symbol : String)
  /-- "Unexpected end of file, expected an identifier." in `advance_identifier`. -/
  | eofExpectedIdentifier (file_path : String) (pos : Nat × Nat)
  /-- "It is illegal to pop data into the `const` segment." in `parse_push_pop_args`. -/
  | illegalPopIntoConstant (file_path : String) (pos : Nat × Nat)
deriving DecidableEq, Repr

/-- The whitespace-and-comment-skipping loop at the start of
`Parser::advance_symbol`, tracking the line and column exactly as the repeated
`advance()` calls do.  A lone `/` not followed by `/` stops the loop. -/
def skipToSymbol (comment : Bool) : List Char → Nat → Nat → List Char × Nat × Nat
  | [], line, col => ([], line, col)
  | c :: rest, line, col =>
    if comment then
      if c = '\n' then skipToSymbol false rest (line + 1) 1
      else skipToSymbol true rest line (col + 1)
    else if isRustWhitespace c then
      if c = '\n' then skipToSymbol false rest (line + 1) 1
      else skipToSymbol false rest line (col + 1)
    else if c = '/' then
      match rest with
      | '/' :: rest2 => skipToSymbol true rest2 line (col + 2)
      | _ => (c :: rest, line, col)
    else (c :: rest, line, col)

/-- The second half of `Parser::advance_symbol`: split off the maximal run of
non-whitespace characters. -/
def takeSymbol : List Char → List Char × List Char
  | [] => ([], [])
  | c :: rest =>
    if isRustWhitespace c then ([], c :: rest)
    else
      let (sym, rest2) := takeSymbol rest
      (c :: sym, rest2)

/-- `Parser::advance_symbol`.  Returns the start position and text of the next
symbol (or `none` at end of file) together with the updated parser. -/
def Parser.advance_symbol (p : Parser) : Option ((Nat × Nat) × String) × Parser :=
  let (src, line, col) := skipToSymbol false p.source p.current_line p.current_col
  let (sym, rest) := takeSymbol src
  if sym.isEmpty then
    (none, { p with source := src, current_line := line, current_col := col })
  else
    (some ((line, col), sym.asString),
     { p with source := rest, current_line := line, current_col := col + sym.length })

/-- `Parser::advance_mem_segment`. -/
def Parser.advance_mem_segment (p : Parser) :
    Except ParseError ((Nat × Nat) × MemorySegment) × Parser :=
  match p.advance_symbol with
  | (some (pos, symbol), p) =>
    match MemorySegment.from_name symbol with
    | some segment => (Except.ok (pos, segment), p)
    | none =>
      (Except.error (.expectedOneOfFound p.file_path pos MemorySegment.all_names symbol), p)
  | (none, p) =>
    (Except.error (.expectedOneOfEof p.file_path (p.current_line, p.current_col)
      MemorySegment.all_names), p)

/-- `Parser::advance_constant`. -/
def Parser.advance_constant (p : Parser) : Except ParseError Nat × Parser :=
  match p.advance_symbol with
  | (some (pos, symbol), p) =>
    match parseUsize symbol with
    | none => (Except.error (.expectedNonnegativeInteger p.file_path pos symbol), p)
    | some parsed =>
      if parsed > 32767 then (Except.error (.integerTooBig p.file_path pos symbol), p)
      else (Except.ok parsed, p)
  | (none, p) =>
    (Except.error (.eofExpectedInteger p.file_path (p.current_line, p.current_col)), p)

/-- The character-validation loop of `Parser::advance_identifier`: the first
character that is not ASCII-alphanumeric, `_`, `.` or `:`, or a digit at
index 0.  `Char.isAlphanum` and `Char.isDigit` are the ASCII tests, matching
Rust's `is_ascii_alphanumeric` and `is_ascii_digit`. -/
def firstIllegalIdentChar (idx : Nat) : List Char → Option Char
  | [] => none
  | ch :: rest =>
    if !(ch.isAlphanum || ch == '_' || ch == '.' || ch == ':') || (ch.isDigit && idx == 0)
    then some ch
    else firstIllegalIdentChar (idx + 1) rest

/-- `Parser::advance_identifier`. -/
def Parser.advance_identifier (p : Parser) : Except ParseError String × Parser :=
  match p.advance_symbol with
  | (some (pos, symbol), p) =>
    match firstIllegalIdentChar 0 symbol.data with
    | some ch => (Except.error (.illegalIdentifierCharacter p.file_path pos ch symbol), p)
    | none => (Except.ok symbol, p)
  | (none, p) =>
    (Except.error (.eofExpectedIdentifier p.file_path (p.current_line, p.current_col)), p)

/-- `Parser::parse_push_pop_args`.  For `static`, the index is offset by the
session's `static_base` and the program's static size is raised *before* the
push/pop distinction is examined; popping into `constant` errors without
appending a command. -/
def Parser.parse_push_pop_args (p : Parser) (is_push : Bool) : Except ParseError Unit × Parser :=
  match p.advance_mem_segment with
  | (Except.error e, p) => (Except.error e, p)
  | (Except.ok (msp, memory_segment), p) =>
    match p.advance_constant with
    | (Except.error e, p) => (Except.error e, p)
    | (Except.ok index0, p) =>
      let (index, p) :=
        if memory_segment = MemorySegment.Static then
          (index0 + p.static_base,
           { p with output := p.output.increase_static_size (index0 + p.static_base + 1) })
        else (index0, p)
      if is_push then
        (Except.ok (),
         { p with output := p.output.push_command (VmCommand.Push memory_segment index) })
      else if memory_segment = MemorySegment.Constant then
        (Except.error (.illegalPopIntoConstant p.file_path msp), p)
      else
        (Except.ok (),
         { p with output := p.output.push_command (VmCommand.Pop memory_segment index) })

/-- `Parser::advance_command_arguments`. -/
def Parser.advance_command_arguments (p : Parser) (command : CommandName) :
    Except ParseError Unit × Parser :=
  match command with
  | .Arithmetic op =>
    (Except.ok (), { p with output := p.output.push_command (VmCommand.Arithmetic op) })
  | .Call =>
    match p.advance_identifier with
    | (Except.error e, p) => (Except.error e, p)
    | (Except.ok fn_name, p) =>
      match p.advance_constant with
      | (Except.error e, p) => (Except.error e, p)
      | (Except.ok num_args, p) =>
        (Except.ok (),
         { p with output := p.output.push_command (VmCommand.Call fn_name num_args) })
  | .Function =>
    match p.advance_identifier with
    | (Except.error e, p) => (Except.error e, p)
    | (Except.ok ident, p) =>
      match p.advance_constant with
      | (Except.error e, p) => (Except.error e, p)
      | (Except.ok num_locals, p) =>
        let out := (p.output.push_command (VmCommand.Label ident)).push_command
          (VmCommand.FnSetup num_locals)
        (Except.ok (), { p with output := out })
  | .Goto =>
    match p.advance_identifier with
    | (Except.error e, p) => (Except.error e, p)
    | (Except.ok ident, p) =>
      (Except.ok (), { p with output := p.output.push_command (VmCommand.Goto ident) })
  | .IfGoto =>
    match p.advance_identifier with
    | (Except.error e, p) => (Except.error e, p)
    | (Except.ok ident, p) =>
      (Except.ok (), { p with output := p.output.push_command (VmCommand.IfGoto ident) })
  | .Label =>
    match p.advance_identifier with
    | (Except.error e, p) => (Except.error e, p)
    | (Except.ok ident, p) =>
      (Except.ok (), { p with output := p.output.push_command (VmCommand.Label ident) })
  | .Push => p.parse_push_pop_args true
  | .Pop => p.parse_push_pop_args false
  | .Return =>
    (Except.ok (), { p with output := p.output.push_command VmCommand.Return })

/-- `Parser::advance_command`.  `Ok false` signals end of file. -/
def Parser.advance_command (p : Parser) : Except ParseError Bool × Parser :=
  match p.advance_symbol with
  | (none, p) => (Except.ok false, p)
  | (some (pos, symbol), p) =>
    match CommandName.from_name symbol with
    | some command_name =>
      match p.advance_command_arguments command_name with
      | (Except.ok _, p) => (Except.ok true, p)
      | (Except.error e, p) => (Except.error e, p)
    | none =>
      (Except.error (.expectedOneOfFound p.file_path pos
        (CommandName.all_names ++ ArithmeticOpcode.all_names) symbol), p)

/-- The `while parser.advance_command()?` loop of `parse`, with explicit fuel.
Every iteration that continues consumes at least one source character, so fuel
equal to the source length plus one never runs out. -/
def Parser.run : Nat → Parser → Except ParseError Unit × Parser
  | 0, p => (Except.ok (), p)
  | fuel + 1, p =>
    match p.advance_command with
    | (Except.ok true, p) => Parser.run fuel p
    | (Except.ok false, p) => (Except.ok (), p)
    | (Except.error e, p) => (Except.error e, p)

/-- The free function `parse`.  Because the Rust parser mutates the program
through `&mut`, the (possibly partially extended) program is returned in both
the success and the error case. -/
def parse (into : VmProgram) (source : String) (file_path : String) :
    Except ParseError Unit × VmProgram :=
  let p := Parser.new into source file_path
  let (res, p) := Parser.run (source.data.length + 1) p
  (res, p.output)

/- ===================== derived emission shapes ===================== -/

/-- The label produced by `make_label` for counter value `i`. -/
def labelName (i : Nat) : String := "__VM_IMPL_LABEL_" ++ Nat.repr i

/-- The exact text one call of `Translator::push` appends to `result`. -/
def pushFromText (fromReg : Register) : String :=
  if fromReg ≠ Register.D then
    "// action: push\n" ++ ("D=" ++ fromReg.display ++ "\n") ++ pushBodyText
  else
    "// action: push\n" ++ pushBodyText

/-- The exact text one call of `Translator::pop` appends to `result`. -/
def popToText (into : Register) : String :=
  "// action: pop\n" ++ popBodyText ++
    (into.display ++ "=M      // Copy *r13addr (==**spa) into " ++ into.display ++ "\n")

theorem make_label_eq (t : Translator) :
    t.make_label = (labelName t.next_unnamed_label_id,
      { t with next_unnamed_label_id := t.next_unnamed_label_id + 1 }) := rfl

theorem push_result (t : Translator) (r : Register) :
    t.push r = { t with result := t.result ++ pushFromText r } := by
  cases r <;>
    simp [Translator.push, Translator.push_str, pushFromText, Register.display,
      String.append_assoc]

theorem pop_result (t : Translator) (r : Register) :
    t.pop r = { t with result := t.result ++ popToText r } := by
  cases r <;>
    simp [Translator.pop, Translator.push_str, popToText, Register.display,
      String.append_assoc]

theorem push_str_result (t : Translator) (s : String) :
    t.push_str s = { t with result := t.result ++ s } := rfl

/-- The full text emitted for one comparison opcode: the arithmetic-command
header, the pop of the right operand into D, and the comparison template
instantiated with the fresh label and the opcode's jump mnemonic. -/
def comparisonEmission (jump label : String) : String :=
  "// command: arithmetic\n" ++ popToText .D ++ comparisonText label jump

theorem comparisonCase_result (t : Translator) (jump : String) :
    t.comparisonCase jump =
      { next_unnamed_label_id := t.next_unnamed_label_id + 1,
        result := t.result ++ popToText .D ++
          comparisonText (labelName t.next_unnamed_label_id) jump,
        current_num_locals := t.current_num_locals } := by
  simp [Translator.comparisonCase, pop_result, make_label_eq, push_str_result,
    String.append_assoc]

/- ===================== spec-side definitions (refinement) ===================== -/

/-- Stated from the spec, §4.2 call protocol: the saved caller pointers are
pushed "in that fixed order": local pointer, argument pointer, this pointer,
that pointer. -/
def specSavedPointerOrder : List String := ["LCL", "ARG", "THIS", "THAT"]

/-- The text that saves one caller pointer during a call: the comment line,
loading the pointer cell's address, and a stack push from its `M` register. -/
def pushOldPointerText (name : String) : String :=
  "// push old " ++ name ++ " onto stack\n@" ++ name ++ "\n" ++ pushFromText .M

/-- Stated from the spec, §4.2 call protocol: push the return address, then
the caller's pointers in the fixed order of `specSavedPointerOrder`, then
compute the new argument pointer as stack top minus (argCount + 5) and the new
local pointer as the stack top, jump to the callee, and define the return
label after the jump (`callPointerSetupText` ends with the jump followed by
the label definition). -/
def specCallEmission (fn_name : String) (num_args : Nat) (ret_label : String) : String :=
  callHeaderText fn_name (Nat.repr num_args) ret_label
  ++ pushFromText .A
  ++ String.join (specSavedPointerOrder.map pushOldPointerText)
  ++ callPointerSetupText (Nat.repr num_args) fn_name ret_label
  ++ "// end command: call {0} {1}\n\n"

/-- Stated from the spec, §4.2 return protocol: the restore order mirrors the
call-time push order. -/
def specRestoreOrder : List String := ["THAT", "THIS", "ARG", "LCL"]

/-- The text that restores one saved pointer during a return: a stack pop into
D followed by a store into the pointer cell. -/
def restorePointerText (name : String) : String :=
  popToText .D ++ "@" ++ name ++ "\nM=D\n"

/-- Stated from the spec, §4.2 return protocol: "restore that/this/argument/
local pointers by popping in that order".  The interleaved `// restore ...`
and `// store ...` comment lines of the generated text are kept between the
restore steps. -/
def specReturnRestores : String :=
  restorePointerText "THAT" ++ "// restore old THIS value\n"
  ++ restorePointerText "THIS" ++ "// restore old ARG value\n"
  ++ restorePointerText "ARG" ++ "// restore old LCL value\n"
  ++ restorePointerText "LCL"

/-- The full text emitted for a `Return` instruction, with the pointer
restores factored through `specReturnRestores`. -/
def returnEmission (num_locals : Nat) : String :=
  "// command: return (" ++ Nat.repr num_locals ++ " locals)\n// pop return value\n"
  ++ popToText .D ++ "// store in R14\n@R14\nM=D\n"
  ++ deallocLocalsText
  ++ specReturnRestores ++ "// store return address in R13\n"
  ++ popToText .D ++ "@R13\nM=D\n"
  ++ "// reset stack pointer from R15 and push return value\n"
  ++ "@R15\nD=M\n@SP\nM=D\n@R14\n"
  ++ pushFromText .M
  ++ "// jump to return address\n"
  ++ "@R13\nA=M\n0;JEQ\n"
  ++ "// end command: return\n\n"

/-- Modelled from the spec: the jump-condition semantics of the conditional
jumps the generator emits (§4.2: equal→zero, greater-than→positive,
less-than→negative), as a function of the signed value left in D. -/
def jumpTaken : String → Int → Bool
  | "JEQ", d => d == 0
  | "JGT", d => decide (0 < d)
  | "JLT", d => decide (d < 0)
  | _, _ => false

theorem translate_call_result (t : Translator) (fn_name : String) (num_args : Nat) :
    t.translate_call fn_name num_args =
      { next_unnamed_label_id := t.next_unnamed_label_id + 1,
        result := t.result ++ specCallEmission fn_name num_args
          (labelName t.next_unnamed_label_id),
        current_num_locals := t.current_num_locals } := by
  simp [Translator.translate_call, make_label_eq, push_str_result, push_result,
    specCallEmission, String.join, pushOldPointerText, specSavedPointerOrder,
    String.append_assoc, String.append_empty]

theorem translate_return_result (t : Translator) :
    t.translate_return =
      { t with result := t.result ++ returnEmission t.current_num_locals } := by
  have h1 : ("@THAT\nM=D\n// restore old THIS value\n" : String)
      = "@THAT\nM=D\n" ++ "// restore old THIS value\n" := rfl
  have h2 : ("@THIS\nM=D\n// restore old ARG value\n" : String)
      = "@THIS\nM=D\n" ++ "// restore old ARG value\n" := rfl
  have h3 : ("@ARG\nM=D\n// restore old LCL value\n" : String)
      = "@ARG\nM=D\n" ++ "// restore old LCL value\n" := rfl
  have h4 : ("@LCL\nM=D\n// store return address in R13\n" : String)
      = "@LCL\nM=D\n" ++ "// store return address in R13\n" := rfl
  simp [Translator.translate_return, push_str_result, pop_result, push_result,
    returnEmission, specReturnRestores, restorePointerText, h1, h2, h3, h4,
    String.append_assoc]

/-- Concatenation of a list of strings. -/
def concatAll : List String → String
  | [] => ""
  | s :: rest => s ++ concatAll rest

/-- How many fresh labels one arithmetic opcode consumes: one for each
comparison, none otherwise. -/
def arithmeticLabelUse : ArithmeticOpcode → Nat
  | .Eq | .Gt | .Lt => 1
  | _ => 0

/-- The full text emitted for one arithmetic opcode (`label` is the fresh
label used by the comparison opcodes and ignored by the others). -/
def arithmeticEmission (opcode : ArithmeticOpcode) (label : String) : String :=
  match opcode with
  | .Add => "// command: arithmetic\n" ++ popToText .D ++ arithmeticTailText "M=M+D"
  | .Sub => "// command: arithmetic\n" ++ popToText .D ++ arithmeticTailText "M=M-D"
  | .Neg => "// command: arithmetic\n" ++ arithmeticTailText "M=-M"
  | .Eq => comparisonEmission "JEQ" label
  | .Gt => comparisonEmission "JGT" label
  | .Lt => comparisonEmission "JLT" label
  | .And => "// command: arithmetic\n" ++ popToText .D ++ arithmeticTailText "M=M&D"
  | .Or => "// command: arithmetic\n" ++ popToText .D ++ arithmeticTailText "M=M|D"
  | .Not => "// command: arithmetic\n" ++ arithmeticTailText "M=!M"

theorem translate_arithmetic_result (t : Translator) (opcode : ArithmeticOpcode) :
    t.translate_arithmetic_opcode opcode =
      { next_unnamed_label_id := t.next_unnamed_label_id + arithmeticLabelUse opcode,
        result := t.result ++ arithmeticEmission opcode (labelName t.next_unnamed_label_id),
        current_num_locals := t.current_num_locals } := by
  cases opcode <;>
    simp [Translator.translate_arithmetic_opcode, comparisonCase_result,
      comparisonEmission, arithmeticEmission, arithmeticLabelUse, pop_result,
      push_str_result, String.append_assoc]

theorem foldl_push_locals (l : List Nat) (t : Translator) :
    l.foldl (fun t idx =>
        (t.push_str ("// push local #" ++ Nat.repr idx ++ "\nD=0\n")).push .D) t
      = { t with result := t.result ++ concatAll (l.map
          (fun idx => "// push local #" ++ Nat.repr idx ++ "\nD=0\n" ++ pushFromText .D)) } := by
  induction l generalizing t with
  | nil => simp [concatAll, String.append_empty]
  | cons x xs ih =>
    rw [List.foldl_cons, push_str_result, push_result, ih]
    simp [concatAll, String.append_assoc]

/-- The full text emitted for a `FnSetup` instruction. -/
def fnSetupEmission (num_locals : Nat) : String :=
  "// command: function " ++ Nat.repr num_locals ++ "\n"
  ++ concatAll ((List.range num_locals).map
      (fun idx => "// push local #" ++ Nat.repr idx ++ "\nD=0\n" ++ pushFromText .D))
  ++ "// end command: function " ++ Nat.repr num_locals ++ "\n\n"

theorem translate_fn_setup_result (t : Translator) (num_locals : Nat) :
    t.translate_fn_setup num_locals =
      { next_unnamed_label_id := t.next_unnamed_label_id,
        result := t.result ++ fnSetupEmission num_locals,
        current_num_locals := num_locals } := by
  show (Translator.push_str
      (List.foldl
        (fun t idx => (t.push_str ("// push local #" ++ Nat.repr idx ++ "\nD=0\n")).push .D)
        (Translator.push_str
          { next_unnamed_label_id := t.next_unnamed_label_id, result := t.result,
            current_num_locals := num_locals }
          ("// command: function " ++ Nat.repr num_locals ++ "\n"))
        (List.range num_locals))
      ("// end command: function " ++ Nat.repr num_locals ++ "\n\n")) = _
  rw [foldl_push_locals]
  simp [push_str_result, fnSetupEmission, String.append_assoc]

/-- `t'` extends `t` by appending some text to `result`. -/
def ResultExtends (t t' : Translator) : Prop := ∃ a, t'.result = t.result ++ a

theorem resultExtends_refl (t : Translator) : ResultExtends t t :=
  ⟨"", (String.append_empty t.result).symm⟩

theorem resultExtends_trans {t t' t'' : Translator}
    (h1 : ResultExtends t t') (h2 : ResultExtends t' t'') : ResultExtends t t'' := by
  obtain ⟨a, ha⟩ := h1
  obtain ⟨b, hb⟩ := h2
  exact ⟨a ++ b, by rw [hb, ha, String.append_assoc]⟩

/-- The `match` in `translate_push` computing the addressing code, with the
panic arms as errors. -/
def pushCode : MemorySegment → Nat → Except TranslateDefect String
  | .Constant, index => Except.ok ("@" ++ Nat.repr index ++ "\nD=A")
  | .Local, index => Except.ok (load_d_from_ptr_offset "LCL" index)
  | .Argument, index => Except.ok (load_d_from_ptr_offset "ARG" index)
  | .This, index => Except.ok (load_d_from_ptr_offset "THIS" index)
  | .That, index => Except.ok (load_d_from_ptr_offset "THAT" index)
  | .Pointer, index => Except.ok (load_d_from_offset (3 + index))
  | .Temp, index => Except.ok (load_d_from_offset (5 + index))
  | .Static, _ => Except.error (TranslateDefect.pushSegmentUnimplemented .Static)

/-- The `match` in `translate_pop` computing the addressing code, with the
panic arms as errors. -/
def popCode : MemorySegment → Nat → Except TranslateDefect String
  | .Constant, _ => Except.error TranslateDefect.popConstantUnreachable
  | .Local, index => Except.ok (store_d_into_ptr_offset "LCL" index)
  | .Argument, index => Except.ok (store_d_into_ptr_offset "ARG" index)
  | .This, index => Except.ok (store_d_into_ptr_offset "THIS" index)
  | .That, index => Except.ok (store_d_into_ptr_offset "THAT" index)
  | .Pointer, index => Except.ok (store_d_into_offset (3 + index))
  | .Temp, index => Except.ok (store_d_into_offset (5 + index))
  | .Static, _ => Except.error (TranslateDefect.popSegmentUnimplemented .Static)

theorem translate_push_eq (t : Translator) (segment : MemorySegment) (index : Nat) :
    t.translate_push segment index = (pushCode segment index).map (fun code =>
      { t with result := t.result
          ++ ("// command: push " ++ segment.debugName ++ " " ++ Nat.repr index ++ "\n")
          ++ code ++ pushFromText .D ++ "// end command: push\n\n" }) := by
  cases segment <;>
    simp [Translator.translate_push, pushCode, push_str_result, push_result,
      Except.map, bind, Except.bind, pure, Except.pure, throw, throwThe,
      MonadExceptOf.throw]

theorem translate_pop_eq (t : Translator) (segment : MemorySegment) (index : Nat) :
    t.translate_pop segment index = (popCode segment index).map (fun code =>
      { t with result := t.result
          ++ ("// command: pop " ++ segment.debugName ++ " " ++ Nat.repr index ++ "\n")
          ++ popToText .D ++ code }) := by
  cases segment <;>
    simp [Translator.translate_pop, popCode, push_str_result, pop_result,
      Except.map, bind, Except.bind, pure, Except.pure, throw, throwThe,
      MonadExceptOf.throw]

theorem extends_translate_push {t t' : Translator} {segment : MemorySegment} {index : Nat}
    (h : t.translate_push segment index = Except.ok t') : ResultExtends t t' := by
  rw [translate_push_eq] at h
  cases hc : pushCode segment index with
  | error e => rw [hc] at h; exact absurd h (by simp [Except.map])
  | ok code =>
    rw [hc] at h
    simp only [Except.map, Except.ok.injEq] at h
    refine ⟨("// command: push " ++ segment.debugName ++ " " ++ Nat.repr index ++ "\n")
      ++ code ++ pushFromText .D ++ "// end command: push\n\n", ?_⟩
    rw [← h]
    simp [String.append_assoc]

theorem extends_translate_pop {t t' : Translator} {segment : MemorySegment} {index : Nat}
    (h : t.translate_pop segment index = Except.ok t') : ResultExtends t t' := by
  rw [translate_pop_eq] at h
  cases hc : popCode segment index with
  | error e => rw [hc] at h; exact absurd h (by simp [Except.map])
  | ok code =>
    rw [hc] at h
    simp only [Except.map, Except.ok.injEq] at h
    refine ⟨("// command: pop " ++ segment.debugName ++ " " ++ Nat.repr index ++ "\n")
      ++ popToText .D ++ code, ?_⟩
    rw [← h]
    simp [String.append_assoc]

theorem extends_translateCommand {t t' : Translator} {command : VmCommand}
    (h : t.translateCommand command = Except.ok t') : ResultExtends t t' := by
  cases command with
  | Arithmetic opcode =>
    simp only [Translator.translateCommand, pure, Except.pure, Except.ok.injEq] at h
    subst h
    exact ⟨_, by rw [translate_arithmetic_result]⟩
  | Call fn_name num_args =>
    simp only [Translator.translateCommand, pure, Except.pure, Except.ok.injEq] at h
    subst h
    exact ⟨_, by rw [translate_call_result]⟩
  | FnSetup num_locals =>
    simp only [Translator.translateCommand, pure, Except.pure, Except.ok.injEq] at h
    subst h
    exact ⟨_, by rw [translate_fn_setup_result]⟩
  | Goto label =>
    simp only [Translator.translateCommand, pure, Except.pure, Except.ok.injEq] at h
    subst h
    exact ⟨_, by rw [push_str_result]⟩
  | IfGoto label =>
    exact absurd h (by simp [Translator.translateCommand, throw, throwThe, MonadExceptOf.throw])
  | Label label =>
    simp only [Translator.translateCommand, pure, Except.pure, Except.ok.injEq] at h
    subst h
    exact ⟨_, by rw [push_str_result]⟩
  | Push segment index => exact extends_translate_push h
  | Pop segment index => exact extends_translate_pop h
  | Return =>
    simp only [Translator.translateCommand, pure, Except.pure, Except.ok.injEq] at h
    subst h
    exact ⟨_, by rw [translate_return_result]⟩

theorem extends_translateCommands {t t' : Translator} {commands : List VmCommand}
    (h : t.translateCommands commands = Except.ok t') : ResultExtends t t' := by
  induction commands generalizing t with
  | nil =>
    simp only [Translator.translateCommands, pure, Except.pure, Except.ok.injEq] at h
    subst h
    exact resultExtends_refl t
  | cons c rest ih =>
    simp only [Translator.translateCommands, bind, Except.bind] at h
    cases hc : t.translateCommand c with
    | error e => rw [hc] at h; exact absurd h (by simp)
    | ok t1 =>
      rw [hc] at h
      exact resultExtends_trans (extends_translateCommand hc) (ih h)

/- ===================== parser state lemmas ===================== -/

theorem advance_symbol_fields (p : Parser) :
    (p.advance_symbol).2.output = p.output ∧
    (p.advance_symbol).2.static_base = p.static_base ∧
    (p.advance_symbol).2.file_path = p.file_path := by
  unfold Parser.advance_symbol
  rcases hsk : skipToSymbol false p.source p.current_line p.current_col with ⟨src, line, col⟩
  rcases htk : takeSymbol src with ⟨sym, rest⟩
  by_cases hs : sym.isEmpty <;> simp [hsk, htk, hs]

theorem advance_mem_segment_snd (p : Parser) :
    (p.advance_mem_segment).2 = (p.advance_symbol).2 := by
  unfold Parser.advance_mem_segment
  rcases h : p.advance_symbol with ⟨o, p1⟩
  match o with
  | none => simp
  | some (pos, symbol) => cases hm : MemorySegment.from_name symbol <;> simp [hm]

theorem advance_constant_snd (p : Parser) :
    (p.advance_constant).2 = (p.advance_symbol).2 := by
  unfold Parser.advance_constant
  rcases h : p.advance_symbol with ⟨o, p1⟩
  match o with
  | none => simp
  | some (pos, symbol) =>
    cases hm : parseUsize symbol with
    | none => simp [hm]
    | some parsed => by_cases hgt : parsed > 32767 <;> simp [hm, hgt]

theorem advance_identifier_snd (p : Parser) :
    (p.advance_identifier).2 = (p.advance_symbol).2 := by
  unfold Parser.advance_identifier
  rcases h : p.advance_symbol with ⟨o, p1⟩
  match o with
  | none => simp
  | some (pos, symbol) => cases hm : firstIllegalIdentChar 0 symbol.data <;> simp [hm]

/- ===================== static-size invariant (C7 machinery) ===================== -/

/-- A command's static index (if any) is below the bound `n`. -/
def staticBoundOk (n : Nat) : VmCommand → Bool
  | .Push .Static i => decide (i < n)
  | .Pop .Static i => decide (i < n)
  | _ => true

/-- Every static index stored in the program is strictly below its
`static_size` high-water mark. -/
def VmProgram.staticOk (q : VmProgram) : Bool :=
  q.commands.all (staticBoundOk q.static_size)

/-- One parsing step relates programs by: the high-water mark never
decreases, and the static-index bound is preserved. -/
def ProgStep (q q' : VmProgram) : Prop :=
  q.static_size ≤ q'.static_size ∧ (q.staticOk = true → q'.staticOk = true)

theorem progStep_refl (q : VmProgram) : ProgStep q q := ⟨le_refl _, id⟩

theorem progStep_trans {a b c : VmProgram} (h1 : ProgStep a b) (h2 : ProgStep b c) :
    ProgStep a c := ⟨le_trans h1.1 h2.1, fun h => h2.2 (h1.2 h)⟩

theorem staticBoundOk_mono {a b : Nat} (h : a ≤ b) (c : VmCommand)
    (hc : staticBoundOk a c = true) : staticBoundOk b c = true := by
  cases c with
  | Push seg i => cases seg <;> simp_all [staticBoundOk] <;> omega
  | Pop seg i => cases seg <;> simp_all [staticBoundOk] <;> omega
  | _ => simp_all [staticBoundOk]

theorem staticOk_all_bound {q : VmProgram} (h : q.staticOk = true) :
    ∀ c ∈ q.commands, staticBoundOk q.static_size c = true := by
  simpa [VmProgram.staticOk, List.all_eq_true] using h

theorem progStep_push_command (q : VmProgram) (c : VmCommand)
    (h : staticBoundOk q.static_size c = true) : ProgStep q (q.push_command c) := by
  refine ⟨le_refl _, fun hq => ?_⟩
  simp only [VmProgram.staticOk, VmProgram.push_command, List.all_append, List.all_cons,
    List.all_nil, Bool.and_true, Bool.and_eq_true]
  exact ⟨by simpa [VmProgram.staticOk] using hq, h⟩

theorem progStep_increase (q : VmProgram) (n : Nat) :
    ProgStep q (q.increase_static_size n) := by
  refine ⟨le_max_left _ _, fun hq => ?_⟩
  simp only [VmProgram.increase_static_size, VmProgram.staticOk, List.all_eq_true] at hq ⊢
  exact fun c hc => staticBoundOk_mono (le_max_left _ _) c (hq c hc)

theorem staticBoundOk_push_nonstatic {seg : MemorySegment} (h : seg ≠ .Static) (n i : Nat) :
    staticBoundOk n (.Push seg i) = true := by
  cases seg <;> simp_all [staticBoundOk]

theorem staticBoundOk_pop_nonstatic {seg : MemorySegment} (h : seg ≠ .Static) (n i : Nat) :
    staticBoundOk n (.Pop seg i) = true := by
  cases seg <;> simp_all [staticBoundOk]

theorem output_of_advance_symbol {p : Parser} {r : Option ((Nat × Nat) × String)} {p1 : Parser}
    (h : p.advance_symbol = (r, p1)) :
    p1.output = p.output ∧ p1.static_base = p.static_base := by
  have hs := advance_symbol_fields p
  rw [h] at hs
  exact ⟨hs.1, hs.2.1⟩

theorem output_of_advance_mem_segment {p : Parser}
    {r : Except ParseError ((Nat × Nat) × MemorySegment)} {p1 : Parser}
    (h : p.advance_mem_segment = (r, p1)) :
    p1.output = p.output ∧ p1.static_base = p.static_base := by
  have hs := advance_mem_segment_snd p
  rw [h] at hs
  simp only at hs
  rw [hs]
  exact ⟨(advance_symbol_fields p).1, (advance_symbol_fields p).2.1⟩

theorem output_of_advance_constant {p : Parser} {r : Except ParseError Nat} {p1 : Parser}
    (h : p.advance_constant = (r, p1)) :
    p1.output = p.output ∧ p1.static_base = p.static_base := by
  have hs := advance_constant_snd p
  rw [h] at hs
  simp only at hs
  rw [hs]
  exact ⟨(advance_symbol_fields p).1, (advance_symbol_fields p).2.1⟩

theorem output_of_advance_identifier {p : Parser} {r : Except ParseError String} {p1 : Parser}
    (h : p.advance_identifier = (r, p1)) :
    p1.output = p.output ∧ p1.static_base = p.static_base := by
  have hs := advance_identifier_snd p
  rw [h] at hs
  simp only at hs
  rw [hs]
  exact ⟨(advance_symbol_fields p).1, (advance_symbol_fields p).2.1⟩

theorem progStep_parse_push_pop_args (p : Parser) (b : Bool) :
    ProgStep p.output ((p.parse_push_pop_args b).2.output) := by
  unfold Parser.parse_push_pop_args
  split
  next e p1 heq =>
    rw [(output_of_advance_mem_segment heq).1]
    exact progStep_refl _
  next msp seg p1 heq =>
    have hp1 := (output_of_advance_mem_segment heq).1
    split
    next e p2 heq2 =>
      rw [(output_of_advance_constant heq2).1, hp1]
      exact progStep_refl _
    next index0 p2 heq2 =>
      have hp2 : p2.output = p.output := by
        rw [(output_of_advance_constant heq2).1, hp1]
      by_cases hseg : seg = MemorySegment.Static
      · subst hseg
        cases b with
        | true =>
          show ProgStep p.output
            ((p2.output.increase_static_size (index0 + p2.static_base + 1)).push_command
              (VmCommand.Push .Static (index0 + p2.static_base)))
          rw [← hp2]
          refine progStep_trans (progStep_increase _ _) (progStep_push_command _ _ ?_)
          simp only [staticBoundOk, VmProgram.increase_static_size, decide_eq_true_eq]
          omega
        | false =>
          show ProgStep p.output
            ((p2.output.increase_static_size (index0 + p2.static_base + 1)).push_command
              (VmCommand.Pop .Static (index0 + p2.static_base)))
          rw [← hp2]
          refine progStep_trans (progStep_increase _ _) (progStep_push_command _ _ ?_)
          simp only [staticBoundOk, VmProgram.increase_static_size, decide_eq_true_eq]
          omega
      · rw [if_neg hseg]
        cases b with
        | true =>
          show ProgStep p.output (p2.output.push_command (VmCommand.Push seg index0))
          rw [← hp2]
          exact progStep_push_command _ _ (staticBoundOk_push_nonstatic hseg _ _)
        | false =>
          show ProgStep p.output
            ((if seg = MemorySegment.Constant
              then ((Except.error (ParseError.illegalPopIntoConstant p2.file_path msp) :
                      Except ParseError Unit), p2)
              else (Except.ok (),
                { p2 with output := p2.output.push_command (VmCommand.Pop seg index0) })).2.output)
          by_cases hcons : seg = MemorySegment.Constant
          · rw [if_pos hcons]
            show ProgStep p.output p2.output
            rw [hp2]
            exact progStep_refl _
          · rw [if_neg hcons]
            show ProgStep p.output (p2.output.push_command (VmCommand.Pop seg index0))
            rw [← hp2]
            exact progStep_push_command _ _ (staticBoundOk_pop_nonstatic hseg _ _)

theorem progStep_advance_command_arguments (p : Parser) (cn : CommandName) :
    ProgStep p.output ((p.advance_command_arguments cn).2.output) := by
  unfold Parser.advance_command_arguments
  split
  -- Arithmetic
  next op => exact progStep_push_command p.output (VmCommand.Arithmetic op) rfl
  -- Call
  · split
    next e p1 heq =>
      rw [(output_of_advance_identifier heq).1]
      exact progStep_refl _
    next fn_name p1 heq =>
      have hp1 := (output_of_advance_identifier heq).1
      split
      next e p2 heq2 =>
        rw [(output_of_advance_constant heq2).1, hp1]
        exact progStep_refl _
      next num_args p2 heq2 =>
        show ProgStep p.output (p2.output.push_command (VmCommand.Call fn_name num_args))
        rw [(output_of_advance_constant heq2).1, hp1]
        exact progStep_push_command _ _ rfl
  -- Function
  · split
    next e p1 heq =>
      rw [(output_of_advance_identifier heq).1]
      exact progStep_refl _
    next ident p1 heq =>
      have hp1 := (output_of_advance_identifier heq).1
      split
      next e p2 heq2 =>
        rw [(output_of_advance_constant heq2).1, hp1]
        exact progStep_refl _
      next num_locals p2 heq2 =>
        show ProgStep p.output
          ((p2.output.push_command (VmCommand.Label ident)).push_command
            (VmCommand.FnSetup num_locals))
        rw [(output_of_advance_constant heq2).1, hp1]
        exact progStep_trans (progStep_push_command p.output (VmCommand.Label ident) rfl)
          (progStep_push_command (p.output.push_command (VmCommand.Label ident))
            (VmCommand.FnSetup num_locals) rfl)
  -- Goto
  · split
    next e p1 heq =>
      rw [(output_of_advance_identifier heq).1]
      exact progStep_refl _
    next ident p1 heq =>
      show ProgStep p.output (p1.output.push_command (VmCommand.Goto ident))
      rw [(output_of_advance_identifier heq).1]
      exact progStep_push_command _ _ rfl
  -- IfGoto
  · split
    next e p1 heq =>
      rw [(output_of_advance_identifier heq).1]
      exact progStep_refl _
    next ident p1 heq =>
      show ProgStep p.output (p1.output.push_command (VmCommand.IfGoto ident))
      rw [(output_of_advance_identifier heq).1]
      exact progStep_push_command _ _ rfl
  -- Label
  · split
    next e p1 heq =>
      rw [(output_of_advance_identifier heq).1]
      exact progStep_refl _
    next ident p1 heq =>
      show ProgStep p.output (p1.output.push_command (VmCommand.Label ident))
      rw [(output_of_advance_identifier heq).1]
      exact progStep_push_command _ _ rfl
  -- Push
  · exact progStep_parse_push_pop_args p true
  -- Pop
  · exact progStep_parse_push_pop_args p false
  -- Return
  · exact progStep_push_command p.output VmCommand.Return rfl

theorem progStep_advance_command (p : Parser) :
    ProgStep p.output ((p.advance_command).2.output) := by
  unfold Parser.advance_command
  split
  next p1 heq =>
    rw [(output_of_advance_symbol heq).1]
    exact progStep_refl _
  next pos symbol p1 heq =>
    have hp1 := (output_of_advance_symbol heq).1
    split
    next cn hcn =>
      split
      next val p2 heq2 =>
        have h2 := progStep_advance_command_arguments p1 cn
        rw [heq2] at h2
        simp only at h2
        show ProgStep p.output p2.output
        rw [← hp1]
        exact h2
      next e p2 heq2 =>
        have h2 := progStep_advance_command_arguments p1 cn
        rw [heq2] at h2
        simp only at h2
        show ProgStep p.output p2.output
        rw [← hp1]
        exact h2
    next hcn =>
      show ProgStep p.output p1.output
      rw [hp1]
      exact progStep_refl _

theorem progStep_run (fuel : Nat) (p : Parser) :
    ProgStep p.output ((Parser.run fuel p).2.output) := by
  induction fuel generalizing p with
  | zero => exact progStep_refl _
  | succ n ih =>
    unfold Parser.run
    split
    next p1 heq =>
      have h1 := progStep_advance_command p
      rw [heq] at h1
      simp only at h1
      exact progStep_trans h1 (ih p1)
    next p1 heq =>
      have h1 := progStep_advance_command p
      rw [heq] at h1
      simpa only using h1
    next e p1 heq =>
      have h1 := progStep_advance_command p
      rw [heq] at h1
      simpa only using h1

theorem progStep_parse (into : VmProgram) (source file_path : String) :
    ProgStep into ((parse into source file_path).2) := by
  unfold parse
  show ProgStep into
    ((match Parser.run (source.data.length + 1) (Parser.new into source file_path) with
      | (res, p) => (res, p.output)).2)
  have h := progStep_run (source.data.length + 1) (Parser.new into source file_path)
  rcases hr : Parser.run (source.data.length + 1) (Parser.new into source file_path) with ⟨r, p1⟩
  rw [hr] at h
  simp only at h
  show ProgStep into p1.output
  exact h

theorem parse_push_pop_args_static {p p1 p2 : Parser} {msp : Nat × Nat} {i : Nat}
    (h1 : p.advance_mem_segment = (Except.ok (msp, MemorySegment.Static), p1))
    (h2 : p1.advance_constant = (Except.ok i, p2)) (is_push : Bool) :
    p.parse_push_pop_args is_push
      = (Except.ok (),
         { p2 with output := (p2.output.increase_static_size (i + p2.static_base + 1)).push_command ((if is_push then VmCommand.Push else VmCommand.Pop) .Static (i + p2.static_base)) }) := by
  unfold Parser.parse_push_pop_args
  simp only [h1, h2]
  cases is_push <;> simp

theorem parse_push_pop_args_push_nonstatic {p p1 p2 : Parser} {msp : Nat × Nat}
    {seg : MemorySegment} {i : Nat} (hseg : seg ≠ MemorySegment.Static)
    (h1 : p.advance_mem_segment = (Except.ok (msp, seg), p1))
    (h2 : p1.advance_constant = (Except.ok i, p2)) :
    p.parse_push_pop_args true
      = (Except.ok (), { p2 with output := p2.output.push_command (VmCommand.Push seg i) }) := by
  unfold Parser.parse_push_pop_args
  simp only [h1, h2]
  rw [if_neg hseg]
  simp

theorem parse_push_pop_args_pop_nonstatic {p p1 p2 : Parser} {msp : Nat × Nat}
    {seg : MemorySegment} {i : Nat} (hseg : seg ≠ MemorySegment.Static)
    (hcons : seg ≠ MemorySegment.Constant)
    (h1 : p.advance_mem_segment = (Except.ok (msp, seg), p1))
    (h2 : p1.advance_constant = (Except.ok i, p2)) :
    p.parse_push_pop_args false
      = (Except.ok (), { p2 with output := p2.output.push_command (VmCommand.Pop seg i) }) := by
  unfold Parser.parse_push_pop_args
  simp only [h1, h2]
  rw [if_neg hseg]
  simp [hcons]

theorem parse_push_pop_args_pop_constant {p p1 p2 : Parser} {msp : Nat × Nat} {i : Nat}
    (h1 : p.advance_mem_segment = (Except.ok (msp, MemorySegment.Constant), p1))
    (h2 : p1.advance_constant = (Except.ok i, p2)) :
    p.parse_push_pop_args false
      = (Except.error (.illegalPopIntoConstant p2.file_path msp), p2) := by
  unfold Parser.parse_push_pop_args
  simp only [h1, h2]
  simp


/- ===================== claims ===================== -/

/-- C1: the claim states that for every parser-producible instruction sequence
(which includes `IfGoto` and push/pop on the `static` segment) `translate` is
total and returns `Ok` with the full assembly text.  The code refutes this:
the parser accepts `push static 0` and `if-goto end`, and `translate` then
reaches the `unimplemented!()` panic arms (modelled as `Except.error`) instead
of producing output.  The spec's §4.2/§7 infallibility statement is the
intent; the panics contradict it. -/
theorem C1_translate_panics_on_parser_producible_ir :
    parse VmProgram.new "push static 0" "Main.vm"
      = (Except.ok (), { commands := [VmCommand.Push .Static 0], static_size := 1 })
    ∧ translate { commands := [VmCommand.Push .Static 0], static_size := 1 }
      = Except.error (TranslateDefect.pushSegmentUnimplemented .Static)
    ∧ parse VmProgram.new "pop static 0" "Main.vm"
      = (Except.ok (), { commands := [VmCommand.Pop .Static 0], static_size := 1 })
    ∧ translate { commands := [VmCommand.Pop .Static 0], static_size := 1 }
      = Except.error (TranslateDefect.popSegmentUnimplemented .Static)
    ∧ parse VmProgram.new "if-goto end" "Main.vm"
      = (Except.ok (), { commands := [VmCommand.IfGoto "end"], static_size := 0 })
    ∧ translate { commands := [VmCommand.IfGoto "end"], static_size := 0 }
      = Except.error TranslateDefect.ifGotoUnimplemented :=
  ⟨rfl, rfl, rfl, rfl, rfl, rfl⟩

/-- C2: the claim states that the generator lowers `IfGoto(name)` to assembly
that pops the top of stack and jumps to `name` when the value is non-zero.
The code refutes this: the `IfGoto` arm of `Translator::translate` is
`unimplemented!()`, so no assembly is ever emitted for `IfGoto`; the
translation of any `IfGoto` instruction panics (modelled as `Except.error`)
for every translator state. -/
theorem C2_ifgoto_lowering_is_unimplemented :
    parse VmProgram.new "if-goto loop" "Main.vm"
      = (Except.ok (), { commands := [VmCommand.IfGoto "loop"], static_size := 0 })
    ∧ (∀ (t : Translator) (name : String),
        t.translateCommand (VmCommand.IfGoto name)
          = Except.error TranslateDefect.ifGotoUnimplemented) :=
  ⟨rfl, fun _ _ => rfl⟩

/-- C3 counterexample: the claim states that every output of `translate`
begins with a stack-pointer-initialization preamble, even for zero
instructions.  But the zero-instruction program translates to the empty
string, which contains no instruction at all (in particular it does not start
with an `@`-instruction, which any stack-pointer initialization would need),
so no preamble is emitted. -/
theorem C3_counterexample_empty_program_empty_output :
    translate { commands := [], static_size := 0 } = Except.ok ""
    ∧ ("" : String).startsWith "@" = false
    ∧ ("" : String).length = 0 :=
  ⟨rfl, rfl, rfl⟩

/-- C3 amended: `translate` emits no preamble at all: a zero-instruction
program produces the empty output, and for a non-empty program the output
begins directly with the lowering of the first instruction. -/
theorem C3_no_preamble_output_begins_with_first_instruction :
    (∀ s : Nat, translate { commands := [], static_size := s } = Except.ok "")
    ∧ (∀ (c : VmCommand) (rest : List VmCommand) (s : Nat) (t1 : Translator) (out : String),
        Translator.translateCommand
          { next_unnamed_label_id := 0, result := "", current_num_locals := 0 } c
          = Except.ok t1 →
        translate { commands := c :: rest, static_size := s } = Except.ok out →
        ∃ tail, out = t1.result ++ tail) := by
  constructor
  · intro s
    rfl
  · intro c rest s t1 out h1 h2
    unfold translate Translator.translate VmProgram.into_commands at h2
    simp only [Translator.translateCommands, bind, Except.bind, h1] at h2
    cases hc : Translator.translateCommands t1 rest with
    | error e => rw [hc] at h2; exact absurd h2 (by simp [Except.map])
    | ok t2 =>
      rw [hc] at h2
      simp only [Except.map, Except.ok.injEq] at h2
      obtain ⟨a, ha⟩ := extends_translateCommands hc
      exact ⟨a, by rw [← h2, ha]⟩

/-- C3 amended, witness: instantiated at the one-instruction program
`[Label "L"]`, whose lowering is `(L)\n`. -/
theorem C3_no_preamble_witness :
    Translator.translateCommand
        { next_unnamed_label_id := 0, result := "", current_num_locals := 0 }
        (VmCommand.Label "L")
      = Except.ok { next_unnamed_label_id := 0, result := "(L)\n", current_num_locals := 0 }
    ∧ translate { commands := [VmCommand.Label "L"], static_size := 0 } = Except.ok "(L)\n"
    ∧ ∃ tail, ("(L)\n" : String)
        = ({ next_unnamed_label_id := 0, result := "(L)\n", current_num_locals := 0 }
            : Translator).result ++ tail :=
  ⟨rfl, rfl,
   C3_no_preamble_output_begins_with_first_instruction.2 (VmCommand.Label "L") [] 0
     { next_unnamed_label_id := 0, result := "(L)\n", current_num_locals := 0 } "(L)\n" rfl rfl⟩


/-- The concrete parser session used by the C4 witness. -/
def c4Session : Parser := Parser.new VmProgram.new "static 7" "w.vm"

set_option maxHeartbeats 2000000 in
/-- C4: every static index parsed in a session is stored as the session's
`static_base` (captured from the program's `static_size` at `Parser::new`)
plus the index as written in the source; consequently two files each parsed
with `push static 0` / `push static 1` into one program yield the four
pairwise-distinct absolute slots 0, 1, 2, 3. -/
theorem C4_static_index_is_base_plus_written :
    (∀ (out : VmProgram) (source file_path : String),
       (Parser.new out source file_path).static_base = out.static_size)
    ∧ (∀ (p p1 p2 : Parser) (msp : Nat × Nat) (i : Nat) (is_push : Bool),
        p.advance_mem_segment = (Except.ok (msp, MemorySegment.Static), p1) →
        p1.advance_constant = (Except.ok i, p2) →
        (p.parse_push_pop_args is_push).2.output.commands
          = p2.output.commands
            ++ [(if is_push then VmCommand.Push else VmCommand.Pop) .Static (i + p.static_base)])
    ∧ parse VmProgram.new "push static 0\npush static 1" "FileA.vm"
        = (Except.ok (),
           { commands := [VmCommand.Push .Static 0, VmCommand.Push .Static 1], static_size := 2 })
    ∧ parse { commands := [VmCommand.Push .Static 0, VmCommand.Push .Static 1], static_size := 2 }
        "push static 0\npush static 1" "FileB.vm"
        = (Except.ok (),
           { commands := [VmCommand.Push .Static 0, VmCommand.Push .Static 1,
              VmCommand.Push .Static 2, VmCommand.Push .Static 3], static_size := 4 })
    ∧ ([0, 1, 2, 3] : List Nat).Pairwise (· ≠ ·) := by
  refine ⟨fun _ _ _ => rfl, ?_, rfl, rfl, by decide⟩
  intro p p1 p2 msp i is_push h1 h2
  have hb2 : p2.static_base = p.static_base := by
    rw [(output_of_advance_constant h2).2, (output_of_advance_mem_segment h1).2]
  rw [parse_push_pop_args_static h1 h2 is_push]
  simp [VmProgram.push_command, VmProgram.increase_static_size, hb2]

set_option maxHeartbeats 1000000 in
/-- C4 witness: the general part instantiated at a session parsing
`static 7` with `static_base = 0`. -/
theorem C4_witness :
    c4Session.advance_mem_segment
      = (Except.ok ((1, 1), MemorySegment.Static), c4Session.advance_mem_segment.2)
    ∧ c4Session.advance_mem_segment.2.advance_constant
      = (Except.ok 7, c4Session.advance_mem_segment.2.advance_constant.2)
    ∧ (c4Session.parse_push_pop_args true).2.output.commands
      = c4Session.advance_mem_segment.2.advance_constant.2.output.commands
        ++ [(if true then VmCommand.Push else VmCommand.Pop) .Static (7 + c4Session.static_base)] :=
  ⟨rfl, rfl,
   C4_static_index_is_base_plus_written.2.1 c4Session c4Session.advance_mem_segment.2
     c4Session.advance_mem_segment.2.advance_constant.2 (1, 1) 7 true rfl rfl⟩

/-- C5: for `Call{name, argCount}` the generator pushes the return address
and then the saved pointers in the fixed order LCL, ARG, THIS, THAT
(`specSavedPointerOrder`), computes the new argument pointer as stack top
minus (argCount + 5) and the new local pointer as the stack top, jumps, and
defines the fresh return label after the jump (`callPointerSetupText` ends
with the jump `0;JEQ` followed by the label definition); for `Return` it
restores the pointers by popping in the mirror order THAT, THIS, ARG, LCL
(`specReturnRestores`). -/
theorem C5_call_return_pointer_protocol (t : Translator) (fn_name : String) (num_args : Nat) :
    t.translate_call fn_name num_args
      = { next_unnamed_label_id := t.next_unnamed_label_id + 1,
          result := t.result
            ++ specCallEmission fn_name num_args (labelName t.next_unnamed_label_id),
          current_num_locals := t.current_num_locals }
    ∧ t.translate_return
      = { t with result := t.result ++ returnEmission t.current_num_locals } :=
  ⟨translate_call_result t fn_name num_args, translate_return_result t⟩

/-- C6: each comparison opcode pops the right operand, subtracts it from the
exposed left operand, unconditionally writes all-bits-set, and branches over
the write-false instruction with a freshly synthesized label
(`comparisonEmission` and the counter increment), with jump mnemonic JEQ for
eq, JGT for gt, JLT for lt; under the machine's jump-condition semantics
(`jumpTaken`) equal operands (difference zero) take the jump only for eq, so
eq is tie-exact and gt/lt are strict. -/
theorem C6_comparison_codegen_and_strictness (t : Translator) :
    t.translate_arithmetic_opcode .Eq
      = { next_unnamed_label_id := t.next_unnamed_label_id + 1,
          result := t.result ++ comparisonEmission "JEQ" (labelName t.next_unnamed_label_id),
          current_num_locals := t.current_num_locals }
    ∧ t.translate_arithmetic_opcode .Gt
      = { next_unnamed_label_id := t.next_unnamed_label_id + 1,
          result := t.result ++ comparisonEmission "JGT" (labelName t.next_unnamed_label_id),
          current_num_locals := t.current_num_locals }
    ∧ t.translate_arithmetic_opcode .Lt
      = { next_unnamed_label_id := t.next_unnamed_label_id + 1,
          result := t.result ++ comparisonEmission "JLT" (labelName t.next_unnamed_label_id),
          current_num_locals := t.current_num_locals }
    ∧ (∀ x : Int, jumpTaken "JEQ" (x - x) = true
        ∧ jumpTaken "JGT" (x - x) = false
        ∧ jumpTaken "JLT" (x - x) = false)
    ∧ (∀ d : Int, jumpTaken "JEQ" d = true ↔ d = 0)
    ∧ (∀ d : Int, jumpTaken "JGT" d = true ↔ 0 < d)
    ∧ (∀ d : Int, jumpTaken "JLT" d = true ↔ d < 0) := by
  refine ⟨translate_arithmetic_result t .Eq, translate_arithmetic_result t .Gt,
    translate_arithmetic_result t .Lt, ?_, ?_, ?_, ?_⟩
  · intro x
    refine ⟨?_, ?_, ?_⟩ <;> simp [jumpTaken]
  · intro d
    simp [jumpTaken]
  · intro d
    simp [jumpTaken]
  · intro d
    simp [jumpTaken]

/-- C7: across any `parse` call (successful or failing), the program's static
high-water mark never decreases, and the invariant that every stored static
index is strictly below the high-water mark is preserved; sequences of calls
compose by transitivity, so the bound holds once all parsing is finished. -/
theorem C7_static_high_water_mark_monotone_and_bounding (into : VmProgram)
    (source file_path : String) (res : Except ParseError Unit) (p' : VmProgram)
    (h : parse into source file_path = (res, p')) :
    into.static_size ≤ p'.static_size
    ∧ (into.staticOk = true → p'.staticOk = true) := by
  have hs := progStep_parse into source file_path
  rw [h] at hs
  exact hs

set_option maxHeartbeats 1000000 in
/-- C7 witness: instantiated at parsing `push static 2` into the empty
program, which raises the high-water mark from 0 to 3. -/
theorem C7_witness :
    parse VmProgram.new "push static 2" "w.vm"
      = (Except.ok (), { commands := [VmCommand.Push .Static 2], static_size := 3 })
    ∧ (VmProgram.new.static_size ≤ 3
       ∧ (VmProgram.new.staticOk = true →
          ({ commands := [VmCommand.Push .Static 2], static_size := 3 } : VmProgram).staticOk
            = true)) :=
  ⟨rfl, C7_static_high_water_mark_monotone_and_bounding VmProgram.new "push static 2" "w.vm"
    (Except.ok ()) { commands := [VmCommand.Push .Static 2], static_size := 3 } rfl⟩


set_option maxHeartbeats 1000000 in
/-- C8: the integer-argument token of push/pop is accepted exactly when it
parses as a nonnegative integer (`parseUsize`, Rust's `usize` grammar) of
value at most 32767: `push constant 32767` succeeds, `push constant 32768`
fails with the too-big error naming the offending token, and a non-numeric
token fails with the nonnegative-integer error. -/
theorem C8_integer_argument_accepted_iff_at_most_32767 :
    (∀ (p p1 : Parser) (pos : Nat × Nat) (symbol : String) (v : Nat),
       p.advance_symbol = (some (pos, symbol), p1) →
       (p.advance_constant = (Except.ok v, p1)
         ↔ (parseUsize symbol = some v ∧ v ≤ 32767)))
    ∧ parse VmProgram.new "push constant 32767" "Main.vm"
        = (Except.ok (), { commands := [VmCommand.Push .Constant 32767], static_size := 0 })
    ∧ parse VmProgram.new "push constant 32768" "Main.vm"
        = (Except.error (ParseError.integerTooBig "Main.vm" (1, 15) "32768"), VmProgram.new)
    ∧ parse VmProgram.new "push constant abc" "Main.vm"
        = (Except.error (ParseError.expectedNonnegativeInteger "Main.vm" (1, 15) "abc"),
           VmProgram.new) := by
  refine ⟨?_, rfl, rfl, rfl⟩
  intro p p1 pos symbol v h
  unfold Parser.advance_constant
  simp only [h]
  cases hu : parseUsize symbol with
  | none => simp
  | some parsed =>
    show (if parsed > 32767
          then (Except.error (ParseError.integerTooBig p1.file_path pos symbol), p1)
          else (Except.ok parsed, p1)) = (Except.ok v, p1)
      ↔ (some parsed = some v ∧ v ≤ 32767)
    by_cases hgt : parsed > 32767
    · rw [if_pos hgt]
      simp only [Prod.mk.injEq, Option.some.injEq, and_true]
      constructor
      · intro hcontra
        exact absurd hcontra (by simp)
      · rintro ⟨rfl, hle⟩
        exfalso
        omega
    · rw [if_neg hgt]
      simp only [Prod.mk.injEq, Except.ok.injEq, Option.some.injEq, and_true]
      constructor
      · intro hv
        exact ⟨hv, by omega⟩
      · rintro ⟨hv, _⟩
        exact hv

/-- The concrete parser session used by the C8 witness. -/
def c8Session : Parser := Parser.new VmProgram.new "42" "w.vm"

set_option maxHeartbeats 1000000 in
/-- C8 witness: the acceptance condition instantiated at the token `42`. -/
theorem C8_witness :
    c8Session.advance_symbol = (some ((1, 1), "42"), c8Session.advance_symbol.2)
    ∧ (c8Session.advance_constant = (Except.ok 42, c8Session.advance_symbol.2)
        ↔ (parseUsize "42" = some 42 ∧ 42 ≤ 32767)) :=
  ⟨rfl, C8_integer_argument_accepted_iff_at_most_32767.1 c8Session
    c8Session.advance_symbol.2 (1, 1) "42" 42 rfl⟩

set_option maxHeartbeats 1000000 in
/-- C9: popping into `constant` is rejected with the illegal-pop error and
appends nothing (the parser state, including the program, is returned
unchanged from the point after the argument tokens, and equals the program
before the command); `pop local 0` succeeds and appends `Pop(local, 0)`; and
`push constant i` succeeds for every successfully tokenized index `i`. -/
theorem C9_pop_constant_rejected_pop_local_ok :
    (∀ (p p1 p2 : Parser) (msp : Nat × Nat) (i : Nat),
       p.advance_mem_segment = (Except.ok (msp, MemorySegment.Constant), p1) →
       p1.advance_constant = (Except.ok i, p2) →
       p.parse_push_pop_args false
         = (Except.error (ParseError.illegalPopIntoConstant p2.file_path msp), p2)
       ∧ p2.output = p.output
       ∧ p.parse_push_pop_args true
         = (Except.ok (),
            { p2 with output := p2.output.push_command (VmCommand.Push .Constant i) }))
    ∧ parse VmProgram.new "pop constant 0" "Main.vm"
        = (Except.error (ParseError.illegalPopIntoConstant "Main.vm" (1, 5)), VmProgram.new)
    ∧ parse VmProgram.new "pop local 0" "Main.vm"
        = (Except.ok (), { commands := [VmCommand.Pop .Local 0], static_size := 0 }) := by
  refine ⟨?_, rfl, rfl⟩
  intro p p1 p2 msp i h1 h2
  have houts : p2.output = p.output := by
    rw [(output_of_advance_constant h2).1, (output_of_advance_mem_segment h1).1]
  exact ⟨parse_push_pop_args_pop_constant h1 h2, houts,
    parse_push_pop_args_push_nonstatic (by decide) h1 h2⟩

/-- The concrete parser session used by the C9 witness. -/
def c9Session : Parser := Parser.new VmProgram.new "constant 5" "w.vm"

set_option maxHeartbeats 1000000 in
/-- C9 witness: instantiated at the argument tokens `constant 5`. -/
theorem C9_witness :
    c9Session.advance_mem_segment
      = (Except.ok ((1, 1), MemorySegment.Constant), c9Session.advance_mem_segment.2)
    ∧ c9Session.advance_mem_segment.2.advance_constant
      = (Except.ok 5, c9Session.advance_mem_segment.2.advance_constant.2)
    ∧ c9Session.parse_push_pop_args false
      = (Except.error (ParseError.illegalPopIntoConstant
          c9Session.advance_mem_segment.2.advance_constant.2.file_path (1, 1)),
         c9Session.advance_mem_segment.2.advance_constant.2) :=
  ⟨rfl, rfl,
   (C9_pop_constant_rejected_pop_local_ok.1 c9Session c9Session.advance_mem_segment.2
     c9Session.advance_mem_segment.2.advance_constant.2 (1, 1) 5 rfl rfl).1⟩

set_option maxHeartbeats 1000000 in
/-- C10: the parser imposes no segment-specific index bound beyond the global
0–32767 limit — any successfully tokenized index is accepted for `pointer`
and `temp` (boundary instances `push pointer 32767` and `pop temp 32767`
included) — and the code generator then emits a direct access to absolute
address `3 + k` for `push pointer k` and `5 + k` for `pop temp k` without any
error. -/
theorem C10_no_segment_specific_index_bound :
    (∀ (p p1 p2 : Parser) (msp : Nat × Nat) (i : Nat) (seg : MemorySegment),
       (seg = MemorySegment.Pointer ∨ seg = MemorySegment.Temp) →
       p.advance_mem_segment = (Except.ok (msp, seg), p1) →
       p1.advance_constant = (Except.ok i, p2) →
       p.parse_push_pop_args true
         = (Except.ok (), { p2 with output := p2.output.push_command (VmCommand.Push seg i) })
       ∧ p.parse_push_pop_args false
         = (Except.ok (), { p2 with output := p2.output.push_command (VmCommand.Pop seg i) }))
    ∧ parse VmProgram.new "push pointer 32767" "Main.vm"
        = (Except.ok (), { commands := [VmCommand.Push .Pointer 32767], static_size := 0 })
    ∧ parse VmProgram.new "pop temp 32767" "Main.vm"
        = (Except.ok (), { commands := [VmCommand.Pop .Temp 32767], static_size := 0 })
    ∧ (∀ (t : Translator) (k : Nat),
        t.translate_push .Pointer k
          = Except.ok { t with result := (t.result
              ++ ("// command: push Pointer " ++ Nat.repr k ++ "\n")
              ++ ("@" ++ Nat.repr (3 + k) ++ "\nD=M\n")
              ++ pushFromText Register.D ++ "// end command: push\n\n") }
        ∧ t.translate_pop .Temp k
          = Except.ok { t with result := (t.result
              ++ ("// command: pop Temp " ++ Nat.repr k ++ "\n")
              ++ popToText Register.D
              ++ ("@" ++ Nat.repr (5 + k) ++ "\nM=D\n")) }) := by
  refine ⟨?_, rfl, rfl, ?_⟩
  · intro p p1 p2 msp i seg hdisj h1 h2
    have hstat : seg ≠ MemorySegment.Static := by
      rcases hdisj with rfl | rfl <;> decide
    have hcons : seg ≠ MemorySegment.Constant := by
      rcases hdisj with rfl | rfl <;> decide
    exact ⟨parse_push_pop_args_push_nonstatic hstat h1 h2,
      parse_push_pop_args_pop_nonstatic hstat hcons h1 h2⟩
  · intro t k
    constructor
    · rw [translate_push_eq]
      simp [pushCode, load_d_from_offset, Except.map, MemorySegment.debugName,
        String.append_assoc]
    · rw [translate_pop_eq]
      simp [popCode, store_d_into_offset, Except.map, MemorySegment.debugName,
        String.append_assoc]

/-- The concrete parser session used by the C10 witness. -/
def c10Session : Parser := Parser.new VmProgram.new "pointer 3" "w.vm"

/-- The C10 witness session after consuming the segment and index tokens. -/
def c10After : Parser := c10Session.advance_mem_segment.2.advance_constant.2

set_option maxHeartbeats 1000000 in
/-- C10 witness: instantiated at the argument tokens `pointer 3`. -/
theorem C10_witness :
    (MemorySegment.Pointer = MemorySegment.Pointer ∨ MemorySegment.Pointer = MemorySegment.Temp)
    ∧ c10Session.advance_mem_segment
      = (Except.ok ((1, 1), MemorySegment.Pointer), c10Session.advance_mem_segment.2)
    ∧ c10Session.advance_mem_segment.2.advance_constant = (Except.ok 3, c10After)
    ∧ c10Session.parse_push_pop_args true
      = (Except.ok (),
         { c10After with output := c10After.output.push_command (VmCommand.Push .Pointer 3) }) :=
  ⟨Or.inl rfl, rfl, rfl,
   (C10_no_segment_specific_index_bound.1 c10Session c10Session.advance_mem_segment.2
     c10After (1, 1) 3 MemorySegment.Pointer (Or.inl rfl) rfl rfl).1⟩

end Vm
